import Mathlib

/-!
Shallow embedding of the scene-editing state machine of `tile_studio`
(`frontend/src/stores/projectStore.ts`).

JS `Set<string>` is modelled as a `List String` queried with `List.contains`;
JS `Map<string, {gridX, gridY}>` is modelled as an association list
`List (String × GridPos)` (insertion order preserved, first binding wins on
lookup, exactly like the source which only inserts a key after checking
absence).  `crypto.randomUUID()` is modelled by a counter `nextId` threaded
through the store state, rendered with `generateId`.

Zustand's `set` performs a shallow merge of the given fields into the current
state; several store actions (`placeTile`, `duplicateSelectedPlacements`,
`redo`) destructure `project` / `history` from the state *before* invoking
`commitMove` / `cancelMove` and afterwards build their update from that stale
snapshot.  The embedding reproduces those stale reads faithfully.
-/

structure TilePlacement where
  id : String
  tileId : String
  gridX : Int
  gridY : Int
  locked : Bool
deriving DecidableEq

structure Edge where
  id : String
  x : Int
  y : Int
  locked : Bool
deriving DecidableEq

structure Scene where
  id : String
  name : String
  gridWidth : Int
  gridHeight : Int
  placements : List TilePlacement
  edges : List Edge
deriving DecidableEq

structure Tile where
  id : String
  labels : List String
deriving DecidableEq

structure Project where
  id : String
  name : String
  tiles : List Tile
  scenes : List Scene
  activeSceneId : Option String
  keywords : List String
deriving DecidableEq

inductive SelectionMode where
  | tiles
  | edges
  | both
deriving DecidableEq

structure Selection where
  tileIds : List String
  edgeIds : List String
  mode : SelectionMode
deriving DecidableEq

structure GridPos where
  gridX : Int
  gridY : Int
deriving DecidableEq

structure UncommittedMove where
  placementIds : List String
  replacedPlacements : List TilePlacement
  originalPositions : List (String × GridPos)
deriving DecidableEq

structure HistoryEntry where
  sceneId : String
  placements : List TilePlacement
  description : String
  uncommittedMove : Option UncommittedMove := none
deriving DecidableEq

structure HistoryState where
  past : List HistoryEntry
  future : List HistoryEntry
deriving DecidableEq

structure Viewport where
  offsetX : Int
  offsetY : Int
  zoom : Int
deriving DecidableEq

/-- The slice of the zustand store that the scene-editing operations touch. -/
structure StoreState where
  project : Option Project
  selection : Selection
  viewport : Viewport
  uncommittedMove : Option UncommittedMove
  history : HistoryState
  nextId : Nat
deriving DecidableEq

def MAX_HISTORY_SIZE : Nat := 50

/-- `while (newPast.length > MAX_HISTORY_SIZE) newPast.shift();` -/
def capPast (l : List HistoryEntry) : List HistoryEntry :=
  l.drop (l.length - MAX_HISTORY_SIZE)

/-- `crypto.randomUUID()`, modelled by a counter. -/
def generateId (n : Nat) : String := toString n

/-- `Map.has` on the association-list model of a JS `Map`. -/
def mapHas (m : List (String × GridPos)) (k : String) : Bool :=
  m.any (fun kv => kv.1 == k)

/-- `Map.get` on the association-list model of a JS `Map`. -/
def mapGet? (m : List (String × GridPos)) (k : String) : Option GridPos :=
  (m.find? (fun kv => kv.1 == k)).map (fun kv => kv.2)

/-- `Map.set` on the association-list model of a JS `Map`. -/
def mapSet (m : List (String × GridPos)) (k : String) (v : GridPos) :
    List (String × GridPos) :=
  if mapHas m k then m.map (fun kv => if kv.1 == k then (k, v) else kv)
  else m ++ [(k, v)]

/-- The first-move capture loop of `movePlacements`:
`for (const p of scene.placements) if (idsSet.has(p.id) && !originalPositions.has(p.id)) originalPositions.set(p.id, {gridX: p.gridX, gridY: p.gridY})`. -/
def captureOriginals (ids : List String) (pls : List TilePlacement)
    (m : List (String × GridPos)) : List (String × GridPos) :=
  pls.foldl
    (fun m p =>
      if ids.contains p.id && !(mapHas m p.id) then
        mapSet m p.id ⟨p.gridX, p.gridY⟩
      else m)
    m

/-- The fresh-overlap scan of `movePlacements`: placements not in the moved
set that sit at one of the moved set's new positions. -/
def computeReplaced (ids : List String) (updatedPlacements : List TilePlacement) :
    List TilePlacement :=
  let newPositions :=
    (updatedPlacements.filter (fun p => ids.contains p.id)).map
      (fun p => (p.gridX, p.gridY))
  updatedPlacements.filter (fun p =>
    !(ids.contains p.id) && newPositions.contains (p.gridX, p.gridY))

/-- `movePlacements(placementIds, dx, dy)` (projectStore.ts:602). -/
def movePlacements (s : StoreState) (placementIds : List String) (dx dy : Int) :
    StoreState :=
  match s.project with
  | none => s
  | some project =>
    match project.activeSceneId with
    | none => s
    | some sid =>
      match project.scenes.find? (fun sc => sc.id == sid) with
      | none => s
      | some scene =>
        let idsSet := placementIds
        let originalPositions :=
          captureOriginals idsSet scene.placements
            (match s.uncommittedMove with
             | some um => um.originalPositions
             | none => [])
        let updatedPlacements := scene.placements.map (fun p =>
          if idsSet.contains p.id then
            { p with gridX := p.gridX + dx, gridY := p.gridY + dy }
          else p)
        let replacedPlacements := computeReplaced idsSet updatedPlacements
        { s with
          project := some { project with
            scenes := project.scenes.map (fun sc =>
              if sc.id == sid then { sc with placements := updatedPlacements }
              else sc) },
          uncommittedMove :=
            some ⟨idsSet, replacedPlacements, originalPositions⟩ }

/-- `commitMove()` (projectStore.ts:993). -/
def commitMove (s : StoreState) : StoreState :=
  match s.project with
  | none => { s with uncommittedMove := none }
  | some project =>
    match project.activeSceneId with
    | none => { s with uncommittedMove := none }
    | some sid =>
      match s.uncommittedMove with
      | none => { s with uncommittedMove := none }
      | some um =>
        match project.scenes.find? (fun sc => sc.id == sid) with
        | none => { s with uncommittedMove := none }
        | some scene =>
          let previousPlacements :=
            (scene.placements.filterMap (fun p =>
              if um.placementIds.contains p.id then
                match mapGet? um.originalPositions p.id with
                | some original =>
                  some { p with gridX := original.gridX, gridY := original.gridY }
                | none => none
              else some p)) ++ um.replacedPlacements
          let description :=
            if um.originalPositions.length == 0 then "place tile" else "move tiles"
          let entry : HistoryEntry := ⟨scene.id, previousPlacements, description, none⟩
          let newPast := capPast (s.history.past ++ [entry])
          let replacedIds := um.replacedPlacements.map (fun p => p.id)
          { s with
            project := some { project with
              scenes := project.scenes.map (fun sc =>
                if sc.id == sid then
                  { sc with placements :=
                      sc.placements.filter (fun p => !(replacedIds.contains p.id)) }
                else sc) },
            uncommittedMove := none,
            history := ⟨newPast, []⟩ }

/-- `cancelMove()` (projectStore.ts:1070). -/
def cancelMove (s : StoreState) : StoreState :=
  match s.project with
  | none => s
  | some project =>
    match project.activeSceneId with
    | none => s
    | some sid =>
      match s.uncommittedMove with
      | none => s
      | some um =>
        { s with
          project := some { project with
            scenes := project.scenes.map (fun sc =>
              if sc.id == sid then
                { sc with placements :=
                    (sc.placements.filter (fun p =>
                      !(um.placementIds.contains p.id) ||
                        mapHas um.originalPositions p.id)).map (fun p =>
                      if um.placementIds.contains p.id then
                        match mapGet? um.originalPositions p.id with
                        | some original =>
                          { p with gridX := original.gridX, gridY := original.gridY }
                        | none => p
                      else p) }
              else sc) },
          uncommittedMove := none,
          selection := { s.selection with tileIds := [] } }

/-- `placeTile(tileId, gridX, gridY)` (projectStore.ts:359).

The source destructures `project` from the store *before* calling
`commitMove()` and afterwards builds its update from that stale `project`
binding; `history`, taken from the post-commit state by zustand's shallow
merge, keeps the entry the commit pushed.  The embedding reproduces this. -/
def placeTile (s : StoreState) (tileId : String) (gridX gridY : Int) : StoreState :=
  match s.project with
  | none => s
  | some project =>
    match project.activeSceneId with
    | none => s
    | some sid =>
      let s1 := if s.uncommittedMove.isSome then commitMove s else s
      match project.scenes.find? (fun sc => sc.id == sid) with
      | none => s1
      | some scene =>
        let existingPlacement :=
          scene.placements.find? (fun p => p.gridX == gridX && p.gridY == gridY)
        let placement : TilePlacement :=
          ⟨generateId s.nextId, tileId, gridX, gridY, false⟩
        { s1 with
          project := some { project with
            scenes := project.scenes.map (fun sc =>
              if sc.id == sid then
                { sc with placements := sc.placements ++ [placement] }
              else sc) },
          uncommittedMove := some
            ⟨[placement.id],
             (match existingPlacement with
              | some e => [e]
              | none => []),
             []⟩,
          selection := { s1.selection with tileIds := [placement.id] },
          nextId := s.nextId + 1 }

/-- `removePlacement(placementId)` (projectStore.ts:408). -/
def removePlacement (s : StoreState) (placementId : String) : StoreState :=
  match s.project with
  | none => s
  | some project =>
    match project.activeSceneId with
    | none => s
    | some sid =>
      { s with
        project := some { project with
          scenes := project.scenes.map (fun sc =>
            if sc.id == sid then
              { sc with placements :=
                  sc.placements.filter (fun p => !(p.id == placementId)) }
            else sc) } }

/-- `removePlacements(placementIds)` (projectStore.ts:424). -/
def removePlacements (s : StoreState) (placementIds : List String) : StoreState :=
  match s.project with
  | none => s
  | some project =>
    match project.activeSceneId with
    | none => s
    | some sid =>
      { s with
        project := some { project with
          scenes := project.scenes.map (fun sc =>
            if sc.id == sid then
              { sc with placements :=
                  sc.placements.filter (fun p => !(placementIds.contains p.id)) }
            else sc) } }

/-- `removeTile(tileId)` (projectStore.ts:325): removes the tile from the
library and destroys every placement referencing it, in every scene. -/
def removeTile (s : StoreState) (tileId : String) : StoreState :=
  match s.project with
  | none => s
  | some project =>
    { s with
      project := some { project with
        tiles := project.tiles.filter (fun t => !(t.id == tileId)),
        scenes := project.scenes.map (fun sc =>
          { sc with placements :=
              sc.placements.filter (fun p => !(p.tileId == tileId)) }) } }

/-- `deleteSelectedPlacements()` (projectStore.ts:442). -/
def deleteSelectedPlacements (s : StoreState) : StoreState :=
  match s.project with
  | none => s
  | some project =>
    match project.activeSceneId with
    | none => s
    | some sid =>
      if s.selection.tileIds.length == 0 then s
      else
        match project.scenes.find? (fun sc => sc.id == sid) with
        | none => s
        | some scene =>
          let entry : HistoryEntry := ⟨scene.id, scene.placements, "delete tiles", none⟩
          let newPast := capPast (s.history.past ++ [entry])
          { s with
            project := some { project with
              scenes := project.scenes.map (fun sc =>
                if sc.id == sid then
                  { sc with placements :=
                      sc.placements.filter (fun p =>
                        !(s.selection.tileIds.contains p.id)) }
                else sc) },
            selection := { s.selection with tileIds := [] },
            uncommittedMove := none,
            history := ⟨newPast, []⟩ }

/-- `duplicateSelectedPlacements()` (projectStore.ts:485).

Like `placeTile`, the source reads `project`, `selection` and `history`
*before* the `commitMove()` call and builds the final update from those stale
bindings; the embedding reproduces this. -/
def duplicateSelectedPlacements (s : StoreState) : StoreState :=
  match s.project with
  | none => s
  | some project =>
    match project.activeSceneId with
    | none => s
    | some sid =>
      if s.selection.tileIds.length == 0 then s
      else
        let s1 := if s.uncommittedMove.isSome then commitMove s else s
        match project.scenes.find? (fun sc => sc.id == sid) with
        | none => s1
        | some scene =>
          let entry : HistoryEntry :=
            ⟨scene.id, scene.placements, "duplicate tiles", none⟩
          let newPast := capPast (s.history.past ++ [entry])
          let selectedPlacements :=
            scene.placements.filter (fun p => s.selection.tileIds.contains p.id)
          match selectedPlacements with
          | [] => s1
          | q :: qs =>
            let minX := qs.foldl (fun a p => min a p.gridX) q.gridX
            let minY := qs.foldl (fun a p => min a p.gridY) q.gridY
            let maxX := qs.foldl (fun a p => max a p.gridX) q.gridX
            let maxY := qs.foldl (fun a p => max a p.gridY) q.gridY
            let selectionWidth := maxX - minX + 1
            let selectionHeight := maxY - minY + 1
            let offset : Int × Int :=
              if maxX + selectionWidth ≥ scene.gridWidth then
                if maxY + selectionHeight ≥ scene.gridHeight then (1, 1)
                else (0, selectionHeight)
              else (selectionWidth, 0)
            let newPlacements : List TilePlacement :=
              (q :: qs).enum.map (fun kp =>
                ⟨generateId (s.nextId + kp.1), kp.2.tileId,
                 kp.2.gridX + offset.1, kp.2.gridY + offset.2, false⟩)
            let newSelectionIds := newPlacements.map (fun p => p.id)
            { s1 with
              project := some { project with
                scenes := project.scenes.map (fun sc =>
                  if sc.id == sid then
                    { sc with placements := sc.placements ++ newPlacements }
                  else sc) },
              selection := { s.selection with tileIds := newSelectionIds },
              uncommittedMove := some ⟨newSelectionIds, [], []⟩,
              history := ⟨newPast, []⟩,
              nextId := s.nextId + (q :: qs).length }

/-- `undo()` (projectStore.ts:1146). -/
def undo (s : StoreState) : StoreState :=
  match s.project with
  | none => s
  | some project =>
    match project.activeSceneId with
    | none => s
    | some sid =>
      match project.scenes.find? (fun sc => sc.id == sid) with
      | none => s
      | some scene =>
        match s.uncommittedMove with
        | some um =>
          if um.originalPositions.length > 0 then
            let currentEntry : HistoryEntry :=
              ⟨scene.id, scene.placements, "uncommitted move", some um⟩
            let restoredPlacements :=
              (scene.placements.map (fun p =>
                if um.placementIds.contains p.id then
                  match mapGet? um.originalPositions p.id with
                  | some original =>
                    { p with gridX := original.gridX, gridY := original.gridY }
                  | none => p
                else p)) ++ um.replacedPlacements
            { s with
              project := some { project with
                scenes := project.scenes.map (fun sc =>
                  if sc.id == scene.id then
                    { sc with placements := restoredPlacements }
                  else sc) },
              uncommittedMove := some ⟨um.placementIds, [], []⟩,
              history := ⟨s.history.past, currentEntry :: s.history.future⟩ }
          else
            let currentEntry : HistoryEntry :=
              ⟨scene.id, scene.placements, "uncommitted move", some um⟩
            let previousPlacements :=
              (scene.placements.filter (fun p =>
                !(um.placementIds.contains p.id))) ++ um.replacedPlacements
            { s with
              project := some { project with
                scenes := project.scenes.map (fun sc =>
                  if sc.id == scene.id then
                    { sc with placements := previousPlacements }
                  else sc) },
              uncommittedMove := none,
              history := ⟨s.history.past, currentEntry :: s.history.future⟩,
              selection := { s.selection with tileIds := [] } }
        | none =>
          match s.history.past.getLast? with
          | none => s
          | some lastEntry =>
            match project.scenes.find? (fun sc => sc.id == lastEntry.sceneId) with
            | none => s
            | some targetScene =>
              let currentEntry : HistoryEntry :=
                ⟨targetScene.id, targetScene.placements, "redo point", none⟩
              { s with
                project := some { project with
                  activeSceneId := some targetScene.id,
                  scenes := project.scenes.map (fun sc =>
                    if sc.id == targetScene.id then
                      { sc with placements := lastEntry.placements }
                    else sc) },
                history :=
                  ⟨s.history.past.dropLast, currentEntry :: s.history.future⟩,
                selection := { s.selection with tileIds := [] } }

/-- `redo()` (projectStore.ts:1299).

The source destructures `project` and `history` *before* calling
`cancelMove()`; the final update is built from those stale bindings (the
post-cancel state only contributes the spread `...get().selection`), and the
`past` append carries no cap enforcement.  The embedding reproduces this. -/
def redo (s : StoreState) : StoreState :=
  match s.project with
  | none => s
  | some project =>
    match s.history.future with
    | [] => s
    | nextEntry :: restFuture =>
      let s1 := if s.uncommittedMove.isSome then cancelMove s else s
      match project.scenes.find? (fun sc => sc.id == nextEntry.sceneId) with
      | none => s1
      | some targetScene =>
        let currentEntry : HistoryEntry :=
          ⟨targetScene.id, targetScene.placements, "undo point", none⟩
        let restoredUncommittedMove := nextEntry.uncommittedMove
        { s1 with
          project := some { project with
            activeSceneId := some targetScene.id,
            scenes := project.scenes.map (fun sc =>
              if sc.id == targetScene.id then
                { sc with placements := nextEntry.placements }
              else sc) },
          history := ⟨s.history.past ++ [currentEntry], restFuture⟩,
          uncommittedMove := restoredUncommittedMove,
          selection := { s1.selection with
            tileIds :=
              match restoredUncommittedMove with
              | some um => um.placementIds
              | none => [] } }

/-- The placements of the currently active scene (empty when absent). -/
def activeScenePlacements (s : StoreState) : List TilePlacement :=
  match s.project with
  | none => []
  | some project =>
    match project.activeSceneId with
    | none => []
    | some sid =>
      match project.scenes.find? (fun sc => sc.id == sid) with
      | none => []
      | some sc => sc.placements

/-- Grid position of the first placement with the given id in the active scene. -/
def placementPos (s : StoreState) (id : String) : Option GridPos :=
  ((activeScenePlacements s).find? (fun p => p.id == id)).map
    (fun p => ⟨p.gridX, p.gridY⟩)

/-! Concrete store states used by the scenario theorems, counterexamples and
witnesses below. -/

def testScene : Scene :=
  { id := "S", name := "scene", gridWidth := 8, gridHeight := 8,
    placements := [⟨"P", "T", 0, 0, false⟩], edges := [] }

def testProject : Project :=
  { id := "PR", name := "proj", tiles := [⟨"T", []⟩], scenes := [testScene],
    activeSceneId := some "S", keywords := [] }

def testState : StoreState :=
  { project := some testProject,
    selection := ⟨[], [], SelectionMode.tiles⟩,
    viewport := ⟨0, 0, 1⟩,
    uncommittedMove := none,
    history := ⟨[], []⟩,
    nextId := 0 }

-- The scene, project and transaction data of `c4s1` (used to instantiate the
-- general theorems at concrete inputs).
def c4scene : Scene :=
  { id := "S", name := "scene", gridWidth := 8, gridHeight := 8,
    placements := [⟨"P", "T", 1, 0, false⟩], edges := [] }

def c4proj : Project :=
  { id := "PR", name := "proj", tiles := [⟨"T", []⟩], scenes := [c4scene],
    activeSceneId := some "S", keywords := [] }

def c4um : UncommittedMove := ⟨["P"], [], [("P", ⟨0, 0⟩)]⟩

-- The scene, project and transaction data of `c5s1`.
def c2scene : Scene :=
  { id := "S", name := "scene", gridWidth := 8, gridHeight := 8,
    placements := [⟨"P", "T", 0, 0, false⟩, ⟨"0", "T", 0, 0, false⟩], edges := [] }

def c2proj : Project :=
  { id := "PR", name := "proj", tiles := [⟨"T", []⟩], scenes := [c2scene],
    activeSceneId := some "S", keywords := [] }

def c2um : UncommittedMove := ⟨["0"], [⟨"P", "T", 0, 0, false⟩], []⟩

-- C4 scenario: move, commit, undo, redo over a single placement P at (0,0).
def c4s1 : StoreState := movePlacements testState ["P"] 1 0
def c4s2 : StoreState := commitMove c4s1
def c4s3 : StoreState := undo c4s2
def c4s4 : StoreState := redo c4s3

-- C5 scenario: placeTile over P, then placeTile elsewhere: the stale write
-- resurrects the replaced placement P.
def c5s1 : StoreState := placeTile testState "T" 0 0
def c5s2 : StoreState := placeTile c5s1 "T" 5 5

-- C7 scenario: fill past to the cap by repeated move+commit, then a
-- transaction-undo followed by redo pushes past beyond the cap.
def moveCommitStep (s : StoreState) : StoreState :=
  commitMove (movePlacements s ["P"] 1 0)

def c7full : StoreState := moveCommitStep^[51] testState
def c7over : StoreState := redo (undo (movePlacements c7full ["P"] 1 0))

-- C9 scenario: 4-wide scene, selection in columns 2..3, room below.
def c9scene : Scene :=
  { id := "S", name := "scene", gridWidth := 4, gridHeight := 5,
    placements := [⟨"P1", "T", 2, 0, false⟩, ⟨"P2", "T", 3, 0, false⟩],
    edges := [] }

def c9proj : Project :=
  { id := "PR", name := "proj", tiles := [⟨"T", []⟩], scenes := [c9scene],
    activeSceneId := some "S", keywords := [] }

def c9state : StoreState :=
  { project := some c9proj,
    selection := ⟨["P1", "P2"], [], SelectionMode.tiles⟩,
    viewport := ⟨0, 0, 1⟩,
    uncommittedMove := none,
    history := ⟨[], []⟩,
    nextId := 0 }

-- C8: removeTile leaves a dangling selected id.
def c8state : StoreState :=
  { testState with selection := ⟨["P"], [], SelectionMode.tiles⟩ }

-- C3 counterexample: two moves with different id sets, then cancel.
def c3scene : Scene :=
  { id := "S", name := "scene", gridWidth := 8, gridHeight := 8,
    placements := [⟨"A", "T", 0, 0, false⟩, ⟨"B", "T", 5, 5, false⟩],
    edges := [] }

def c3project : Project :=
  { id := "PR", name := "proj", tiles := [⟨"T", []⟩], scenes := [c3scene],
    activeSceneId := some "S", keywords := [] }

def c3state : StoreState :=
  { testState with project := some c3project }

-- C1 counterexample states: two cumulative-offset calls on the same drag.
def c1s1 : StoreState := movePlacements testState ["P"] 1 0
def c1s2 : StoreState := movePlacements c1s1 ["P"] 2 0

/-! ## Spec-side definitions and operation combinators used by the claims -/

/-- Bounding-box minimum x of a non-empty selection `q :: qs` (spec §4.2). -/
def bboxMinX (q : TilePlacement) (qs : List TilePlacement) : Int :=
  qs.foldl (fun a p => min a p.gridX) q.gridX

/-- Bounding-box minimum y of a non-empty selection `q :: qs`. -/
def bboxMinY (q : TilePlacement) (qs : List TilePlacement) : Int :=
  qs.foldl (fun a p => min a p.gridY) q.gridY

/-- Bounding-box maximum x of a non-empty selection `q :: qs`. -/
def bboxMaxX (q : TilePlacement) (qs : List TilePlacement) : Int :=
  qs.foldl (fun a p => max a p.gridX) q.gridX

/-- Bounding-box maximum y of a non-empty selection `q :: qs`. -/
def bboxMaxY (q : TilePlacement) (qs : List TilePlacement) : Int :=
  qs.foldl (fun a p => max a p.gridY) q.gridY

/-- The duplication offset as the spec words it: prefer shifting right by the
selection's bounding-box width; if that would exceed `gridWidth`, shift down
by its height instead; if that would also exceed `gridHeight`, fall back to a
(1,1) offset. -/
def dupOffsetSpec (q : TilePlacement) (qs : List TilePlacement)
    (gridWidth gridHeight : Int) : Int × Int :=
  let w := bboxMaxX q qs - bboxMinX q qs + 1
  let h := bboxMaxY q qs - bboxMinY q qs + 1
  if bboxMaxX q qs + w ≥ gridWidth then
    if bboxMaxY q qs + h ≥ gridHeight then (1, 1) else (0, h)
  else (w, 0)

/-- The clones the spec asks `duplicateSelectedPlacements` to produce: every
selected placement with a fresh id and the common spec offset applied. -/
def dupClonesSpec (nid : Nat) (sel : List TilePlacement) (gw gh : Int) :
    List TilePlacement :=
  match sel with
  | [] => []
  | q :: qs =>
    (q :: qs).enum.map (fun kp =>
      ⟨generateId (nid + kp.1), kp.2.tileId,
       kp.2.gridX + (dupOffsetSpec q qs gw gh).1,
       kp.2.gridY + (dupOffsetSpec q qs gw gh).2, false⟩)

/-- Placements after applying a drag offset `d` to the members of `ids` (the
shape a `movePlacements` call produces). -/
def shiftSelected (ids : List String) (d : Int × Int)
    (pls : List TilePlacement) : List TilePlacement :=
  pls.map (fun p =>
    if ids.contains p.id then
      { p with gridX := p.gridX + d.1, gridY := p.gridY + d.2 }
    else p)

/-- A project whose active scene's placement list has been replaced (the
shape every store operation's scene update produces). -/
def projectWithPlacements (proj : Project) (sid : String)
    (pls : List TilePlacement) : Project :=
  { proj with scenes := proj.scenes.map (fun sc =>
      if sc.id == sid then { sc with placements := pls } else sc) }

/-- The mutating operations of the claim "history cap" — everything except
`redo`, which the code exempts from the cap. -/
inductive MutOp where
  | place (tileId : String) (gridX gridY : Int)
  | move (ids : List String) (dx dy : Int)
  | delete
  | duplicate
  | commit
  | cancel
  | undoOp

/-- Apply one mutating operation to the store. -/
def applyOp (s : StoreState) : MutOp → StoreState
  | MutOp.place tileId gx gy => placeTile s tileId gx gy
  | MutOp.move ids dx dy => movePlacements s ids dx dy
  | MutOp.delete => deleteSelectedPlacements s
  | MutOp.duplicate => duplicateSelectedPlacements s
  | MutOp.commit => commitMove s
  | MutOp.cancel => cancelMove s
  | MutOp.undoOp => undo s

/-- Run a sequence of mutating operations. -/
def runOps (s : StoreState) (ops : List MutOp) : StoreState :=
  ops.foldl applyOp s

/-! ## Claim theorems -/

/-- Claim C4 (confirmed).  Scenario on a scene whose only placement P sits at
(0,0) with no transaction open: `movePlacements([P],1,0)` moves P to (1,0) and
opens a transaction with `originalPositions = {P:(0,0)}`; `commitMove` appends
one entry to `past` holding P at (0,0); `undo` restores P to (0,0) and adds a
`future` entry holding P at (1,0); `redo` puts P back at (1,0). -/
theorem C4_move_commit_undo_redo_scenario :
    placementPos c4s1 "P" = some ⟨1, 0⟩ ∧
    c4s1.uncommittedMove = some ⟨["P"], [], [("P", ⟨0, 0⟩)]⟩ ∧
    c4s2.history.past.map (fun e => e.placements) = [[⟨"P", "T", 0, 0, false⟩]] ∧
    c4s2.uncommittedMove = none ∧
    placementPos c4s3 "P" = some ⟨0, 0⟩ ∧
    c4s3.history.past = [] ∧
    c4s3.history.future.map (fun e => e.placements) = [[⟨"P", "T", 1, 0, false⟩]] ∧
    placementPos c4s4 "P" = some ⟨1, 0⟩ ∧
    c4s4.uncommittedMove = none := by
  decide

/-- Claim C5 (code bug).  Failing input: `placeTile` over P at (0,0) opens a
transaction whose `replacedPlacements` is `[P]`; a second `placeTile` at (5,5)
commits that transaction — `commitMove` alone removes P from the scene — but
`placeTile` then rebuilds the project from its pre-commit `project` binding,
so P is back in the scene after `placeTile` returns, while the rest of the
claim (new pure-creation transaction, history entry pushed) does hold. -/
theorem C5_placeTile_resurrects_replaced :
    c5s1.uncommittedMove = some ⟨["0"], [⟨"P", "T", 0, 0, false⟩], []⟩ ∧
    (activeScenePlacements (commitMove c5s1)).any (fun p => p.id == "P") = false ∧
    (activeScenePlacements c5s2).any (fun p => p.id == "P") = true ∧
    c5s2.history.past.length = 1 ∧
    c5s2.uncommittedMove = some ⟨["1"], [], []⟩ := by
  decide

/-- Claim C1 counterexample.  P starts at (0,0); `movePlacements(["P"],1,0)`
then `movePlacements(["P"],2,0)` within the same transaction leaves P at
(3,0) — the deltas accumulate — not at the claimed original-plus-(2,0) =
(2,0), even though the first-move original (0,0) was captured. -/
theorem C1_counterexample :
    placementPos c1s2 "P" = some ⟨3, 0⟩ ∧
    placementPos c1s2 "P" ≠ some ⟨2, 0⟩ ∧
    (∃ um, c1s2.uncommittedMove = some um ∧
      mapGet? um.originalPositions "P" = some ⟨0, 0⟩) := by
  refine ⟨by decide, by decide, ⟨["P"], [], [("P", ⟨0, 0⟩)]⟩, by decide, by decide⟩

/-- Claim C3 counterexample.  A at (0,0) and B at (5,5); from Idle,
`movePlacements(["A"],1,0)` then `movePlacements(["B"],1,1)` then
`cancelMove` leaves A at (1,0), not back at its pre-transaction (0,0): the
second call replaced the transaction's `placementIds` with `{B}`, so cancel
never restores A. -/
theorem C3_counterexample :
    placementPos c3state "A" = some ⟨0, 0⟩ ∧
    placementPos
      (cancelMove (movePlacements (movePlacements c3state ["A"] 1 0) ["B"] 1 1))
      "A" = some ⟨1, 0⟩ ∧
    placementPos
      (cancelMove (movePlacements (movePlacements c3state ["A"] 1 0) ["B"] 1 1))
      "A" ≠ some ⟨0, 0⟩ := by
  refine ⟨by decide, by decide, by decide⟩

/-- Claim C6 counterexample.  With a transaction open (P moved to (1,0)),
`undo` leaves `past` unchanged but prepends an entry to `future`: the Ledger's
future stack is not left unchanged. -/
theorem C6_counterexample :
    (undo c4s1).history.past = c4s1.history.past ∧
    (undo c4s1).history.future ≠ c4s1.history.future ∧
    (undo c4s1).history.future.length = c4s1.history.future.length + 1 := by
  refine ⟨by decide, by decide, by decide⟩

set_option maxRecDepth 400000 in
/-- Claim C7 counterexample.  51 move-commit pairs fill `past` to the cap of
50; one more `movePlacements` followed by a transaction-`undo` (which pushes
to `future` without popping `past`) and a `redo` (which appends to `past`
without enforcing the cap) leaves `past.length = 51 > MAX_HISTORY_SIZE`. -/
theorem C7_counterexample :
    c7full.history.past.length = MAX_HISTORY_SIZE ∧
    MAX_HISTORY_SIZE < c7over.history.past.length := by
  refine ⟨by decide, by decide⟩

/-- Claim C8 counterexample.  Scene with one placement P referencing tile T
and Selection `{P}`: `removeTile T` destroys P but leaves `Selection.tileIds`
untouched, so the dangling id P remains selected. -/
theorem C8_counterexample :
    (removeTile c8state "T").selection.tileIds = ["P"] ∧
    activeScenePlacements (removeTile c8state "T") = [] := by
  refine ⟨by decide, by decide⟩

/-! ## Helper lemmas about the JS Map / Set models -/

theorem mapGet?_append_self (m : List (String × GridPos)) (k : String) (v : GridPos)
    (h : mapHas m k = false) : mapGet? (m ++ [(k, v)]) k = some v := by
  induction m with
  | nil => simp [mapGet?, List.find?]
  | cons kv m ih =>
    simp only [mapHas, List.any_cons, Bool.or_eq_false_iff] at h
    simpa [mapGet?, List.find?, h.1] using ih (by simp [mapHas, h.2])

theorem mapGet?_mapSet_self (m : List (String × GridPos)) (k : String) (v : GridPos)
    (h : mapHas m k = false) : mapGet? (mapSet m k v) k = some v := by
  rw [mapSet, if_neg (by simp [h])]
  exact mapGet?_append_self m k v h

theorem any_map_invariant {α : Type} (f : α → α) (p : α → Bool) (l : List α)
    (h1 : ∀ x, p (f x) = p x) : (l.map f).any p = l.any p := by
  induction l with
  | nil => rfl
  | cons a l ih => simp [h1, ih]

theorem find?_map_invariant {α : Type} (f : α → α) (p : α → Bool) (l : List α)
    (h1 : ∀ x, p (f x) = p x) (h2 : ∀ x, p x = true → f x = x) :
    (l.map f).find? p = l.find? p := by
  induction l with
  | nil => rfl
  | cons a l ih =>
    by_cases ha : p a = true
    · rw [List.map_cons, List.find?_cons_of_pos _ (by rw [h1]; exact ha),
        List.find?_cons_of_pos _ ha, h2 a ha]
    · rw [List.map_cons, List.find?_cons_of_neg _ (by rw [h1]; simpa using ha),
        List.find?_cons_of_neg _ (by simpa using ha)]
      exact ih

theorem mapHas_mapSet_self (m : List (String × GridPos)) (k : String) (v : GridPos) :
    mapHas (mapSet m k v) k = true := by
  rw [mapSet]
  by_cases h : mapHas m k = true
  · rw [if_pos h, mapHas,
      any_map_invariant _ _ _ (fun x => by by_cases hx : x.1 = k <;> simp [hx])]
    exact h
  · rw [if_neg h]
    simp [mapHas]

theorem mapHas_mapSet_of_ne (m : List (String × GridPos)) (k' k : String) (v : GridPos)
    (h : k' ≠ k) : mapHas (mapSet m k' v) k = mapHas m k := by
  rw [mapSet]
  by_cases hm : mapHas m k' = true
  · rw [if_pos hm, mapHas,
      any_map_invariant _ _ _
        (fun x => by by_cases hx : x.1 = k' <;> simp [hx, h])]
    rfl
  · rw [if_neg hm]
    simp [mapHas, h]

theorem mapGet?_mapSet_of_ne (m : List (String × GridPos)) (k' k : String) (v : GridPos)
    (h : k' ≠ k) : mapGet? (mapSet m k' v) k = mapGet? m k := by
  rw [mapSet]
  by_cases hm : mapHas m k' = true
  · rw [if_pos hm, mapGet?,
      find?_map_invariant _ _ _
        (fun x => by by_cases hx : x.1 = k' <;> simp [hx, h])
        (fun x hx => by
          by_cases hx' : x.1 = k'
          · exfalso
            rw [hx', beq_iff_eq] at hx
            exact h hx
          · simp [hx'])]
    rfl
  · rw [if_neg hm, mapGet?, mapGet?, List.find?_append]
    have hne : (k' == k) = false := by simp [h]
    have hnone : List.find? (fun kv => kv.1 == k) [(k', v)] = none := by
      simp [List.find?, hne]
    simp [hnone]

theorem captureOriginals_cons (ids : List String) (p : TilePlacement)
    (pls : List TilePlacement) (m : List (String × GridPos)) :
    captureOriginals ids (p :: pls) m =
      captureOriginals ids pls
        (if ids.contains p.id && !(mapHas m p.id) then
          mapSet m p.id ⟨p.gridX, p.gridY⟩
        else m) := rfl

theorem captureOriginals_preserves (ids : List String) (pls : List TilePlacement)
    (m : List (String × GridPos)) (k : String) (h : mapHas m k = true) :
    mapGet? (captureOriginals ids pls m) k = mapGet? m k ∧
      mapHas (captureOriginals ids pls m) k = true := by
  induction pls generalizing m with
  | nil => exact ⟨rfl, h⟩
  | cons p pls ih =>
    rw [captureOriginals_cons]
    by_cases hc : (ids.contains p.id && !(mapHas m p.id)) = true
    · rw [if_pos hc]
      rw [Bool.and_eq_true, Bool.not_eq_true'] at hc
      have hpk : p.id ≠ k := by
        intro he
        rw [he, h] at hc
        simpa using hc.2
      obtain ⟨hg, hh⟩ := ih (mapSet m p.id ⟨p.gridX, p.gridY⟩)
        (by rw [mapHas_mapSet_of_ne _ _ _ _ hpk]; exact h)
      exact ⟨by rw [hg, mapGet?_mapSet_of_ne _ _ _ _ hpk], hh⟩
    · rw [if_neg hc]
      exact ih m h

theorem captureOriginals_get (ids : List String) (pls : List TilePlacement)
    (m : List (String × GridPos)) (p : TilePlacement)
    (hp : p ∈ pls) (hid : ids.contains p.id = true)
    (hm : mapHas m p.id = false)
    (hnd : (pls.map (fun q => q.id)).Nodup) :
    mapGet? (captureOriginals ids pls m) p.id = some ⟨p.gridX, p.gridY⟩ := by
  induction pls generalizing m with
  | nil => cases hp
  | cons a pls ih =>
    rw [captureOriginals_cons]
    rw [List.map_cons, List.nodup_cons] at hnd
    rcases List.mem_cons.mp hp with rfl | hp'
    · rw [if_pos (by rw [hid, hm]; rfl)]
      have h1 := mapHas_mapSet_self m p.id ⟨p.gridX, p.gridY⟩
      rw [(captureOriginals_preserves ids pls _ p.id h1).1,
        mapGet?_mapSet_self m p.id _ hm]
    · have hane : a.id ≠ p.id := fun he =>
        hnd.1 (he ▸ List.mem_map_of_mem (fun q => q.id) hp')
      by_cases hc : (ids.contains a.id && !(mapHas m a.id)) = true
      · rw [if_pos hc]
        exact ih (mapSet m a.id ⟨a.gridX, a.gridY⟩) hp'
          (by rw [mapHas_mapSet_of_ne _ _ _ _ hane]; exact hm) hnd.2
      · rw [if_neg hc]
        exact ih m hp' hm hnd.2

theorem captureOriginals_has (ids : List String) (pls : List TilePlacement)
    (m : List (String × GridPos)) (p : TilePlacement)
    (hp : p ∈ pls) (hid : ids.contains p.id = true) :
    mapHas (captureOriginals ids pls m) p.id = true := by
  induction pls generalizing m with
  | nil => cases hp
  | cons a pls ih =>
    rw [captureOriginals_cons]
    rcases List.mem_cons.mp hp with rfl | hp'
    · by_cases hm : mapHas m p.id = true
      · rw [if_neg (by simp [hm])]
        exact (captureOriginals_preserves ids pls m p.id hm).2
      · rw [Bool.not_eq_true] at hm
        rw [if_pos (by rw [hid, hm]; rfl)]
        exact (captureOriginals_preserves ids pls _ p.id
          (mapHas_mapSet_self m p.id ⟨p.gridX, p.gridY⟩)).2
    · by_cases hc : (ids.contains a.id && !(mapHas m a.id)) = true
      · rw [if_pos hc]
        exact ih _ hp'
      · rw [if_neg hc]
        exact ih _ hp'

theorem captureOriginals_skip (ids : List String) (pls : List TilePlacement)
    (m : List (String × GridPos))
    (h : ∀ p ∈ pls, ids.contains p.id = true → mapHas m p.id = true) :
    captureOriginals ids pls m = m := by
  induction pls with
  | nil => rfl
  | cons a pls ih =>
    rw [captureOriginals_cons]
    have hc : (ids.contains a.id && !(mapHas m a.id)) = false := by
      by_cases hca : ids.contains a.id = true
      · rw [hca, h a (List.mem_cons_self a pls) hca]
        rfl
      · have hca2 : ids.contains a.id = false := by simpa using hca
        rw [hca2]
        rfl
    rw [if_neg (by rw [hc]; simp)]
    exact ih (fun p hp => h p (List.mem_cons_of_mem _ hp))

theorem find?_scenes_update (l : List Scene) (sid : String) (g : Scene → Scene)
    (hg : ∀ sc, (g sc).id = sc.id) :
    (l.map (fun sc => if sc.id == sid then g sc else sc)).find?
        (fun sc => sc.id == sid) =
      (l.find? (fun sc => sc.id == sid)).map g := by
  induction l with
  | nil => rfl
  | cons a l ih =>
    by_cases h : a.id = sid
    · rw [List.map_cons, if_pos (by simp [h]),
        List.find?_cons_of_pos _ (by simp [hg, h]),
        List.find?_cons_of_pos _ (by simp [h])]
      rfl
    · rw [List.map_cons, if_neg (by simp [h]),
        List.find?_cons_of_neg _ (by simp [h]),
        List.find?_cons_of_neg _ (by simp [h])]
      exact ih

theorem capPast_length_le (l : List HistoryEntry) :
    (capPast l).length ≤ MAX_HISTORY_SIZE := by
  simp [capPast]
  omega

theorem activeScenePlacements_update (pid pname : String) (tiles : List Tile)
    (keywords : List String) (scenes : List Scene) (sid : String) (scene : Scene)
    (f : Scene → List TilePlacement)
    (hfind : scenes.find? (fun sc => sc.id == sid) = some scene)
    (sel : Selection) (vp : Viewport) (um : Option UncommittedMove)
    (hist : HistoryState) (nid : Nat) :
    activeScenePlacements
      ⟨some ⟨pid, pname, tiles,
        scenes.map (fun sc =>
          if sc.id == sid then { sc with placements := f sc } else sc),
        some sid, keywords⟩, sel, vp, um, hist, nid⟩ = f scene := by
  unfold activeScenePlacements
  simp only []
  rw [find?_scenes_update scenes sid (fun sc => { sc with placements := f sc })
    (fun sc => rfl), hfind]
  rfl

theorem commitMove_uncommitted_none (t : StoreState) :
    (commitMove t).uncommittedMove = none := by
  unfold commitMove
  repeat first | rfl | split

theorem commitMove_id_of_none (s : StoreState) (h : s.uncommittedMove = none) :
    commitMove s = s := by
  have hs : { s with uncommittedMove := none } = s := by
    cases s
    simp_all
  unfold commitMove
  rw [h]
  repeat first | exact hs | split

/-- Claim C10 (confirmed).  `commitMove` on a state with no open transaction
leaves the entire store state unchanged (project, scenes, selection, viewport
and history included), and `commitMove` is idempotent on every state. -/
theorem C10_commit_noop_idempotent (s t : StoreState)
    (h : s.uncommittedMove = none) :
    commitMove s = s ∧ commitMove (commitMove t) = commitMove t :=
  ⟨commitMove_id_of_none s h,
   commitMove_id_of_none _ (commitMove_uncommitted_none t)⟩

/-- Witness for C10: concrete idle state and a concrete open-transaction
state. -/
theorem C10_witness :
    commitMove testState = testState ∧
      commitMove (commitMove c4s1) = commitMove c4s1 :=
  C10_commit_noop_idempotent testState c4s1 (by decide)

/-- Claim C2 (confirmed).  With an open transaction (whose
`replacedPlacements` do not overlap its live `placementIds`, as every
transaction built by `placeTile`/`movePlacements` guarantees), `commitMove`
keeps every live placement in the active scene exactly as it stood at the
moment of commit, removes every placement whose id is listed in
`replacedPlacements`, and clears the transaction. -/
theorem C2_commit_preserves_live (s : StoreState) (proj : Project) (sid : String)
    (scene : Scene) (um : UncommittedMove)
    (hproj : s.project = some proj)
    (hsid : proj.activeSceneId = some sid)
    (hfind : proj.scenes.find? (fun sc => sc.id == sid) = some scene)
    (hum : s.uncommittedMove = some um)
    (hdisj : ∀ r ∈ um.replacedPlacements, um.placementIds.contains r.id = false) :
    (∀ p ∈ scene.placements, um.placementIds.contains p.id = true →
        p ∈ activeScenePlacements (commitMove s)) ∧
    (∀ p ∈ activeScenePlacements (commitMove s),
        ∀ r ∈ um.replacedPlacements, p.id ≠ r.id) ∧
    (commitMove s).uncommittedMove = none := by
  have hact : activeScenePlacements (commitMove s) =
      scene.placements.filter (fun p =>
        !((um.replacedPlacements.map (fun r => r.id)).contains p.id)) := by
    unfold commitMove
    rw [hproj]
    simp only [hsid, hum, hfind]
    exact activeScenePlacements_update proj.id proj.name proj.tiles proj.keywords
      proj.scenes sid scene _ hfind _ _ _ _ _
  refine ⟨?_, ?_, ?_⟩
  · intro p hp hpid
    rw [hact]
    refine List.mem_filter.mpr ⟨hp, ?_⟩
    have hcontains :
        ((um.replacedPlacements.map (fun r => r.id)).contains p.id) = false := by
      by_contra hcon
      have hmem : p.id ∈ um.replacedPlacements.map (fun r => r.id) := by
        have hcon2 : (um.replacedPlacements.map (fun r => r.id)).contains p.id = true := by
          revert hcon
          cases (um.replacedPlacements.map (fun r => r.id)).contains p.id <;> simp
        simpa using hcon2
      obtain ⟨r, hr, hrid⟩ := List.mem_map.mp hmem
      have hd := hdisj r hr
      rw [hrid, hpid] at hd
      simp at hd
    rw [hcontains]
    rfl
  · intro p hp r hr hpid
    rw [hact] at hp
    have hpred := (List.mem_filter.mp hp).2
    have hmem : p.id ∈ um.replacedPlacements.map (fun q => q.id) :=
      List.mem_map.mpr ⟨r, hr, hpid.symm⟩
    have : ((um.replacedPlacements.map (fun q => q.id)).contains p.id) = true := by
      simpa using hmem
    rw [this] at hpred
    simp at hpred
  · exact commitMove_uncommitted_none s

/-- Witness for C2: the transaction opened by `placeTile` over P (state
`c5s1`) committed at a concrete input. -/
theorem C2_witness :
    (∀ p ∈ c2scene.placements, c2um.placementIds.contains p.id = true →
        p ∈ activeScenePlacements (commitMove c5s1)) ∧
    (∀ p ∈ activeScenePlacements (commitMove c5s1),
        ∀ r ∈ c2um.replacedPlacements, p.id ≠ r.id) ∧
    (commitMove c5s1).uncommittedMove = none :=
  C2_commit_preserves_live c5s1 c2proj "S" c2scene c2um (by decide) (by decide)
    (by decide) (by decide) (by decide)

/-- Claim C6 (corrected → amended).  When a transaction is open (and the
store has a project with a live active scene), `undo` only rewinds the
transaction: the `past` stack is untouched, but — contrary to the original
claim — the `future` stack gains exactly one entry recording the undone
state. -/
theorem C6_undo_open_txn_ledger (s : StoreState) (proj : Project) (sid : String)
    (scene : Scene) (um : UncommittedMove)
    (hproj : s.project = some proj)
    (hsid : proj.activeSceneId = some sid)
    (hfind : proj.scenes.find? (fun sc => sc.id == sid) = some scene)
    (hum : s.uncommittedMove = some um) :
    (undo s).history.past = s.history.past ∧
    ∃ e, (undo s).history.future = e :: s.history.future := by
  unfold undo
  rw [hproj]
  simp only [hsid, hfind, hum]
  by_cases h : um.originalPositions.length > 0
  · rw [if_pos h]
    exact ⟨rfl, _, rfl⟩
  · rw [if_neg h]
    exact ⟨rfl, _, rfl⟩

/-- Witness for C6 at the concrete open-transaction state `c4s1`. -/
theorem C6_witness :
    (undo c4s1).history.past = c4s1.history.past ∧
    ∃ e, (undo c4s1).history.future = e :: c4s1.history.future :=
  C6_undo_open_txn_ledger c4s1 c4proj "S" c4scene c4um (by decide) (by decide)
    (by decide) (by decide)

/-- Claim C8 (corrected → amended).  `deleteSelectedPlacements` purges the
destroyed ids from `Selection.tileIds` (it clears the tile selection
entirely), but — contrary to the original claim — `removeTile`,
`removePlacement` and `removePlacements` leave the Selection untouched, so
they can leave dangling selected ids. -/
theorem C8_selection_purge (s : StoreState) (proj : Project) (sid : String)
    (scene : Scene)
    (hproj : s.project = some proj)
    (hsid : proj.activeSceneId = some sid)
    (hfind : proj.scenes.find? (fun sc => sc.id == sid) = some scene)
    (hsel : s.selection.tileIds ≠ []) :
    (deleteSelectedPlacements s).selection.tileIds = [] ∧
    (∀ tid, (removeTile s tid).selection = s.selection) ∧
    (∀ pid, (removePlacement s pid).selection = s.selection) ∧
    (∀ pids, (removePlacements s pids).selection = s.selection) := by
  refine ⟨?_, ?_, ?_, ?_⟩
  · unfold deleteSelectedPlacements
    rw [hproj]
    simp only [hsid, hfind]
    rw [if_neg (by simpa using hsel)]
  · intro tid
    unfold removeTile
    rw [hproj]
  · intro pid
    unfold removePlacement
    rw [hproj]
    simp only [hsid]
  · intro pids
    unfold removePlacements
    rw [hproj]
    simp only [hsid]

/-- Witness for C8 at the concrete state `c8state` (P selected). -/
theorem C8_witness :
    (deleteSelectedPlacements c8state).selection.tileIds = [] ∧
    (∀ tid, (removeTile c8state tid).selection = c8state.selection) ∧
    (∀ pid, (removePlacement c8state pid).selection = c8state.selection) ∧
    (∀ pids, (removePlacements c8state pids).selection = c8state.selection) :=
  C8_selection_purge c8state testProject "S" testScene (by decide) (by decide)
    (by decide) (by decide)

/-- Claim C1 (corrected → amended).  `movePlacements(ids, dx, dy)` applies
`(dx, dy)` to each selected placement's *current* scene position — so a
second call within the same transaction accumulates on top of the first
rather than overwriting it — while the first-move-captured original position
of an id already present in `originalPositions` is never overwritten by a
later call. -/
theorem C1_move_delta_from_current (s : StoreState) (proj : Project) (sid : String)
    (scene : Scene) (um : UncommittedMove) (ids : List String) (dx dy : Int)
    (id : String)
    (hproj : s.project = some proj)
    (hsid : proj.activeSceneId = some sid)
    (hfind : proj.scenes.find? (fun sc => sc.id == sid) = some scene)
    (hum : s.uncommittedMove = some um)
    (hhas : mapHas um.originalPositions id = true) :
    activeScenePlacements (movePlacements s ids dx dy) =
      scene.placements.map (fun p =>
        if ids.contains p.id then
          { p with gridX := p.gridX + dx, gridY := p.gridY + dy }
        else p) ∧
    ∃ um', (movePlacements s ids dx dy).uncommittedMove = some um' ∧
      mapGet? um'.originalPositions id = mapGet? um.originalPositions id := by
  unfold movePlacements
  rw [hproj]
  simp only [hsid, hfind, hum]
  constructor
  · exact activeScenePlacements_update proj.id proj.name proj.tiles proj.keywords
      proj.scenes sid scene _ hfind _ _ _ _ _
  · exact ⟨_, rfl, (captureOriginals_preserves ids scene.placements
      um.originalPositions id hhas).1⟩

/-- Witness for C1: second cumulative call `movePlacements(["P"],2,0)` on the
open-transaction state `c4s1` (P already moved to (1,0), original (0,0)
captured). -/
theorem C1_witness :
    activeScenePlacements (movePlacements c4s1 ["P"] 2 0) =
      c4scene.placements.map (fun p =>
        if (["P"] : List String).contains p.id then
          { p with gridX := p.gridX + 2, gridY := p.gridY + 0 }
        else p) ∧
    ∃ um', (movePlacements c4s1 ["P"] 2 0).uncommittedMove = some um' ∧
      mapGet? um'.originalPositions "P" = mapGet? c4um.originalPositions "P" :=
  C1_move_delta_from_current c4s1 c4proj "S" c4scene c4um ["P"] 2 0 "P"
    (by decide) (by decide) (by decide) (by decide) (by decide)

/-- Claim C9 (confirmed).  With no transaction open and a non-empty selection
whose matching placements are `q :: qs`, `duplicateSelectedPlacements` appends
clones of every selected placement with fresh ids at the single common offset
the spec describes (right by the bounding-box width; down by its height when
the right shift would exceed `gridWidth`; `(1,1)` when the down shift would
also exceed `gridHeight`), selects the clones, and opens a fresh
pure-creation transaction over them. -/
theorem C9_duplicate_offset (s : StoreState) (proj : Project) (sid : String)
    (scene : Scene) (q : TilePlacement) (qs : List TilePlacement)
    (hproj : s.project = some proj)
    (hsid : proj.activeSceneId = some sid)
    (hfind : proj.scenes.find? (fun sc => sc.id == sid) = some scene)
    (hum : s.uncommittedMove = none)
    (hsel : s.selection.tileIds ≠ [])
    (hselected :
      scene.placements.filter (fun p => s.selection.tileIds.contains p.id) =
        q :: qs) :
    activeScenePlacements (duplicateSelectedPlacements s) =
      scene.placements ++
        dupClonesSpec s.nextId (q :: qs) scene.gridWidth scene.gridHeight ∧
    (duplicateSelectedPlacements s).selection.tileIds =
      (dupClonesSpec s.nextId (q :: qs) scene.gridWidth scene.gridHeight).map
        (fun p => p.id) ∧
    (duplicateSelectedPlacements s).uncommittedMove =
      some ⟨(dupClonesSpec s.nextId (q :: qs) scene.gridWidth
        scene.gridHeight).map (fun p => p.id), [], []⟩ := by
  unfold duplicateSelectedPlacements
  rw [hproj]
  simp only [hsid, hum, Option.isSome_none, Bool.false_eq_true, if_false, hfind,
    hselected]
  rw [if_neg (by simpa using hsel)]
  refine ⟨?_, ?_, ?_⟩
  · rw [show dupClonesSpec s.nextId (q :: qs) scene.gridWidth scene.gridHeight =
      (q :: qs).enum.map (fun kp =>
        (⟨generateId (s.nextId + kp.1), kp.2.tileId,
          kp.2.gridX + (dupOffsetSpec q qs scene.gridWidth scene.gridHeight).1,
          kp.2.gridY + (dupOffsetSpec q qs scene.gridWidth scene.gridHeight).2,
          false⟩ : TilePlacement)) from rfl]
    rw [show dupOffsetSpec q qs scene.gridWidth scene.gridHeight =
      (if bboxMaxX q qs + (bboxMaxX q qs - bboxMinX q qs + 1) ≥ scene.gridWidth then
        if bboxMaxY q qs + (bboxMaxY q qs - bboxMinY q qs + 1) ≥ scene.gridHeight
        then ((1 : Int), (1 : Int))
        else (0, bboxMaxY q qs - bboxMinY q qs + 1)
      else (bboxMaxX q qs - bboxMinX q qs + 1, 0)) from rfl]
    exact activeScenePlacements_update proj.id proj.name proj.tiles proj.keywords
      proj.scenes sid scene _ hfind _ _ _ _ _
  · rfl
  · rfl

/-- Witness for C9: the spec's boundary scenario — 4-wide scene, selection in
columns 2..3 with room below — lands the clones at (2,1) and (3,1), i.e.
shifted down by the bounding-box height with leftmost column 2. -/
theorem C9_witness :
    activeScenePlacements (duplicateSelectedPlacements c9state) =
      [⟨"P1", "T", 2, 0, false⟩, ⟨"P2", "T", 3, 0, false⟩,
       ⟨"0", "T", 2, 1, false⟩, ⟨"1", "T", 3, 1, false⟩] ∧
    (duplicateSelectedPlacements c9state).selection.tileIds = ["0", "1"] ∧
    (duplicateSelectedPlacements c9state).uncommittedMove =
      some ⟨["0", "1"], [], []⟩ := by
  obtain ⟨h1, h2, h3⟩ := C9_duplicate_offset c9state c9proj "S" c9scene
    ⟨"P1", "T", 2, 0, false⟩ [⟨"P2", "T", 3, 0, false⟩]
    (by decide) (by decide) (by decide) (by decide) (by decide) (by decide)
  exact ⟨by rw [h1]; decide, by rw [h2]; decide, by rw [h3]; decide⟩

theorem map_update_update (scenes : List Scene) (sid : String)
    (pls : List TilePlacement) (f : Scene → List TilePlacement) :
    (scenes.map (fun sc => if sc.id == sid then { sc with placements := pls }
        else sc)).map
      (fun sc => if sc.id == sid then { sc with placements := f sc } else sc) =
      scenes.map (fun sc =>
        if sc.id == sid then
          { sc with placements := f { sc with placements := pls } }
        else sc) := by
  rw [List.map_map]
  apply List.map_congr_left
  intro sc _
  by_cases h : sc.id = sid
  · simp [Function.comp, h]
  · simp [Function.comp, h]

theorem shiftSelected_comp (ids : List String) (d1 d2 : Int × Int)
    (pls : List TilePlacement) :
    shiftSelected ids d2 (shiftSelected ids d1 pls) =
      shiftSelected ids (d1.1 + d2.1, d1.2 + d2.2) pls := by
  unfold shiftSelected
  rw [List.map_map]
  apply List.map_congr_left
  intro p _
  by_cases h : p.id ∈ ids
  · simp [Function.comp, h, add_assoc]
  · simp [Function.comp, h]

theorem shiftSelected_has_originals (ids : List String) (d : Int × Int)
    (pls0 : List TilePlacement) (p : TilePlacement)
    (hp : p ∈ shiftSelected ids d pls0) (hid : ids.contains p.id = true) :
    mapHas (captureOriginals ids pls0 []) p.id = true := by
  obtain ⟨q, hq, hqp⟩ := List.mem_map.mp hp
  have hqid : q.id = p.id := by
    by_cases h : q.id ∈ ids
    · rw [← hqp]
      simp [h]
    · rw [← hqp]
      simp [h]
  rw [← hqid]
  exact captureOriginals_has ids pls0 [] q hq (by rw [hqid]; exact hid)

theorem movePlacements_initial (s : StoreState) (proj : Project) (sid : String)
    (scene : Scene) (ids : List String) (dx dy : Int)
    (hproj : s.project = some proj)
    (hsid : proj.activeSceneId = some sid)
    (hfind : proj.scenes.find? (fun sc => sc.id == sid) = some scene)
    (hum : s.uncommittedMove = none) :
    movePlacements s ids dx dy =
      ⟨some (projectWithPlacements proj sid
          (shiftSelected ids (dx, dy) scene.placements)),
        s.selection, s.viewport,
        some ⟨ids,
          computeReplaced ids (shiftSelected ids (dx, dy) scene.placements),
          captureOriginals ids scene.placements []⟩,
        s.history, s.nextId⟩ := by
  unfold movePlacements projectWithPlacements shiftSelected
  rw [hproj]
  simp only [hsid, hfind, hum]

theorem movePlacements_shape (proj : Project) (sid : String) (scene : Scene)
    (ids : List String) (pls : List TilePlacement) (sel : Selection)
    (vp : Viewport) (R0 : List TilePlacement) (m0 : List (String × GridPos))
    (hist : HistoryState) (nid : Nat) (dx dy : Int)
    (hsid : proj.activeSceneId = some sid)
    (hfind : proj.scenes.find? (fun sc => sc.id == sid) = some scene) :
    movePlacements
        ⟨some (projectWithPlacements proj sid pls), sel, vp,
          some ⟨ids, R0, m0⟩, hist, nid⟩ ids dx dy =
      ⟨some (projectWithPlacements proj sid (shiftSelected ids (dx, dy) pls)),
        sel, vp,
        some ⟨ids, computeReplaced ids (shiftSelected ids (dx, dy) pls),
          captureOriginals ids pls m0⟩, hist, nid⟩ := by
  have h1 : (projectWithPlacements proj sid pls).activeSceneId = some sid := by
    rw [show (projectWithPlacements proj sid pls).activeSceneId =
      proj.activeSceneId from rfl, hsid]
  have h2 : (projectWithPlacements proj sid pls).scenes.find?
      (fun sc => sc.id == sid) = some { scene with placements := pls } := by
    rw [show (projectWithPlacements proj sid pls).scenes =
      proj.scenes.map (fun sc =>
        if sc.id == sid then { sc with placements := pls } else sc) from rfl]
    rw [find?_scenes_update proj.scenes sid
      (fun sc => { sc with placements := pls }) (fun sc => rfl), hfind]
    rfl
  unfold movePlacements
  simp only [h1, h2]
  simp only [projectWithPlacements]
  rw [map_update_update, hsid]
  rfl

theorem captureOriginals_shifted (ids : List String) (d : Int × Int)
    (pls0 : List TilePlacement) :
    captureOriginals ids (shiftSelected ids d pls0)
        (captureOriginals ids pls0 []) =
      captureOriginals ids pls0 [] :=
  captureOriginals_skip _ _ _ (fun p hp hid =>
    shiftSelected_has_originals ids d pls0 p hp hid)

theorem moveSeq_shape (proj : Project) (sid : String) (scene : Scene)
    (ids : List String) (sel : Selection) (vp : Viewport) (hist : HistoryState)
    (nid : Nat)
    (hsid : proj.activeSceneId = some sid)
    (hfind : proj.scenes.find? (fun sc => sc.id == sid) = some scene)
    (ds : List (Int × Int)) (D : Int × Int) :
    ∃ D', ds.foldl (fun t d => movePlacements t ids d.1 d.2)
        ⟨some (projectWithPlacements proj sid
            (shiftSelected ids D scene.placements)), sel, vp,
          some ⟨ids, computeReplaced ids (shiftSelected ids D scene.placements),
            captureOriginals ids scene.placements []⟩, hist, nid⟩ =
      ⟨some (projectWithPlacements proj sid
          (shiftSelected ids D' scene.placements)), sel, vp,
        some ⟨ids, computeReplaced ids (shiftSelected ids D' scene.placements),
          captureOriginals ids scene.placements []⟩, hist, nid⟩ := by
  induction ds generalizing D with
  | nil => exact ⟨D, rfl⟩
  | cons d ds ih =>
    simp only [List.foldl_cons]
    rw [movePlacements_shape proj sid scene ids _ sel vp _ _ hist nid d.1 d.2
      hsid hfind, captureOriginals_shifted, shiftSelected_comp]
    exact ih (D.1 + d.1, D.2 + d.2)

theorem cancel_keep_filter (ids : List String) (d : Int × Int)
    (pls0 : List TilePlacement) :
    (shiftSelected ids d pls0).filter (fun p =>
        !(ids.contains p.id) ||
          mapHas (captureOriginals ids pls0 []) p.id) =
      shiftSelected ids d pls0 := by
  rw [List.filter_eq_self]
  intro p hp
  by_cases h : p.id ∈ ids
  · have hc : ids.contains p.id = true := by simpa using h
    simp [h, shiftSelected_has_originals ids d pls0 p hp hc]
  · simp [h]

theorem cancel_map_restore (ids : List String) (d : Int × Int)
    (pls0 : List TilePlacement)
    (hnd : (pls0.map (fun p => p.id)).Nodup) :
    (shiftSelected ids d pls0).map (fun p =>
        if ids.contains p.id then
          match mapGet? (captureOriginals ids pls0 []) p.id with
          | some original =>
            { p with gridX := original.gridX, gridY := original.gridY }
          | none => p
        else p) = pls0 := by
  unfold shiftSelected
  rw [List.map_map]
  have hpt : ∀ q ∈ pls0,
      ((fun p =>
        if ids.contains p.id then
          match mapGet? (captureOriginals ids pls0 []) p.id with
          | some original =>
            ({ p with gridX := original.gridX, gridY := original.gridY } :
              TilePlacement)
          | none => p
        else p) ∘ (fun p =>
          if ids.contains p.id then
            { p with gridX := p.gridX + d.1, gridY := p.gridY + d.2 }
          else p)) q = (fun q => q) q := by
    intro q hq
    by_cases h : q.id ∈ ids
    · have hc : ids.contains q.id = true := by simpa using h
      have hget := captureOriginals_get ids pls0 [] q hq hc rfl hnd
      cases q
      simp_all
    · simp [Function.comp, h]
  rw [List.map_congr_left hpt, List.map_id']

theorem cancelMove_restores (proj : Project) (sid : String) (scene : Scene)
    (ids : List String) (sel : Selection) (vp : Viewport)
    (R : List TilePlacement) (hist : HistoryState) (nid : Nat) (D : Int × Int)
    (hsid : proj.activeSceneId = some sid)
    (hnd : (scene.placements.map (fun p => p.id)).Nodup) :
    cancelMove ⟨some (projectWithPlacements proj sid
        (shiftSelected ids D scene.placements)), sel, vp,
      some ⟨ids, R, captureOriginals ids scene.placements []⟩, hist, nid⟩ =
      ⟨some (projectWithPlacements proj sid scene.placements),
        ⟨[], sel.edgeIds, sel.mode⟩, vp, none, hist, nid⟩ := by
  have h1 : (projectWithPlacements proj sid
      (shiftSelected ids D scene.placements)).activeSceneId = some sid := by
    rw [show (projectWithPlacements proj sid
      (shiftSelected ids D scene.placements)).activeSceneId =
      proj.activeSceneId from rfl, hsid]
  unfold cancelMove
  simp only [h1]
  simp only [projectWithPlacements]
  rw [map_update_update]
  simp only [cancel_keep_filter ids D scene.placements,
    cancel_map_restore ids D scene.placements hnd]
  rw [hsid]

/-- Claim C3 (corrected → amended).  Starting from an Idle state whose active
scene has distinct placement ids, any sequence of `movePlacements` calls that
all pass the *same* id set, followed by `cancelMove`, restores the active
scene exactly: every placement is back at its pre-transaction position, no
placement created during the transaction survives, and the transaction is
cleared.  (The original claim, for arbitrary id sets across calls, fails —
see the counterexample — because each call overwrites the transaction's
`placementIds` with the latest ids.) -/
theorem C3_cancel_restores_same_ids (s : StoreState) (proj : Project)
    (sid : String) (scene : Scene) (ids : List String) (ds : List (Int × Int))
    (hproj : s.project = some proj)
    (hsid : proj.activeSceneId = some sid)
    (hfind : proj.scenes.find? (fun sc => sc.id == sid) = some scene)
    (hum : s.uncommittedMove = none)
    (hnd : (scene.placements.map (fun p => p.id)).Nodup) :
    activeScenePlacements
        (cancelMove (ds.foldl (fun t d => movePlacements t ids d.1 d.2) s)) =
      scene.placements ∧
    (cancelMove
        (ds.foldl (fun t d => movePlacements t ids d.1 d.2) s)).uncommittedMove =
      none := by
  cases ds with
  | nil =>
    have hc : cancelMove s = s := by
      unfold cancelMove
      rw [hproj]
      simp only [hsid, hum]
    rw [List.foldl_nil, hc]
    refine ⟨?_, hum⟩
    unfold activeScenePlacements
    rw [hproj]
    simp only [hsid, hfind]
  | cons d ds =>
    simp only [List.foldl_cons]
    rw [movePlacements_initial s proj sid scene ids d.1 d.2 hproj hsid hfind hum]
    obtain ⟨D', hseq⟩ := moveSeq_shape proj sid scene ids s.selection s.viewport
      s.history s.nextId hsid hfind ds (d.1, d.2)
    rw [hseq]
    rw [cancelMove_restores proj sid scene ids s.selection s.viewport _
      s.history s.nextId D' hsid hnd]
    constructor
    · unfold activeScenePlacements projectWithPlacements
      simp only [hsid]
      rw [find?_scenes_update proj.scenes sid
        (fun sc => { sc with placements := scene.placements }) (fun sc => rfl),
        hfind]
      rfl
    · rfl

/-- Witness for C3: two same-id-set moves on A (by (1,0) then (2,3)) followed
by `cancelMove` restore the concrete scene `c3scene` exactly. -/
theorem C3_witness :
    activeScenePlacements
        (cancelMove (([((1 : Int), (0 : Int)), (2, 3)]).foldl
          (fun t d => movePlacements t ["A"] d.1 d.2) c3state)) =
      c3scene.placements ∧
    (cancelMove (([((1 : Int), (0 : Int)), (2, 3)]).foldl
        (fun t d => movePlacements t ["A"] d.1 d.2) c3state)).uncommittedMove =
      none :=
  C3_cancel_restores_same_ids c3state c3project "S" c3scene ["A"]
    [(1, 0), (2, 3)] (by decide) (by decide) (by decide) (by decide) (by decide)

theorem movePlacements_history (s : StoreState) (ids : List String)
    (dx dy : Int) : (movePlacements s ids dx dy).history = s.history := by
  unfold movePlacements
  repeat first | rfl | split

theorem cancelMove_history (s : StoreState) :
    (cancelMove s).history = s.history := by
  unfold cancelMove
  repeat first | rfl | split

theorem commitMove_past_le (s : StoreState)
    (h : s.history.past.length ≤ MAX_HISTORY_SIZE) :
    (commitMove s).history.past.length ≤ MAX_HISTORY_SIZE := by
  unfold commitMove
  repeat first | exact h | exact capPast_length_le _ | split

theorem placeTile_past_le (s : StoreState) (tileId : String) (gx gy : Int)
    (h : s.history.past.length ≤ MAX_HISTORY_SIZE) :
    (placeTile s tileId gx gy).history.past.length ≤ MAX_HISTORY_SIZE := by
  unfold placeTile
  repeat first | exact h | exact commitMove_past_le s h | split

theorem deleteSelected_past_le (s : StoreState)
    (h : s.history.past.length ≤ MAX_HISTORY_SIZE) :
    (deleteSelectedPlacements s).history.past.length ≤ MAX_HISTORY_SIZE := by
  unfold deleteSelectedPlacements
  repeat first | exact h | exact capPast_length_le _ | split

theorem duplicateSelected_past_le (s : StoreState)
    (h : s.history.past.length ≤ MAX_HISTORY_SIZE) :
    (duplicateSelectedPlacements s).history.past.length ≤ MAX_HISTORY_SIZE := by
  unfold duplicateSelectedPlacements
  repeat first
    | exact h
    | exact commitMove_past_le s h
    | exact capPast_length_le _
    | split
  all_goals dsimp only
  repeat first
    | exact h
    | exact commitMove_past_le s h
    | exact capPast_length_le _
    | split

theorem undo_past_le (s : StoreState)
    (h : s.history.past.length ≤ MAX_HISTORY_SIZE) :
    (undo s).history.past.length ≤ MAX_HISTORY_SIZE := by
  unfold undo
  repeat first
    | exact h
    | (rw [List.length_dropLast]; omega)
    | split

theorem applyOp_past_le (s : StoreState) (op : MutOp)
    (h : s.history.past.length ≤ MAX_HISTORY_SIZE) :
    (applyOp s op).history.past.length ≤ MAX_HISTORY_SIZE := by
  cases op with
  | place tileId gx gy => exact placeTile_past_le s tileId gx gy h
  | move ids dx dy =>
    simp only [applyOp]
    rw [movePlacements_history]
    exact h
  | delete => exact deleteSelected_past_le s h
  | duplicate => exact duplicateSelected_past_le s h
  | commit => exact commitMove_past_le s h
  | cancel =>
    simp only [applyOp]
    rw [cancelMove_history]
    exact h
  | undoOp => exact undo_past_le s h

/-- Claim C7 (corrected → amended).  Under every mutating operation except
`redo` — place, move, delete, duplicate, commit, cancel, undo — a past stack
within the cap stays within the cap, and a capped push onto a full past drops
the oldest entry first (FIFO eviction).  (`redo` appends to `past` without
eviction and can exceed the cap — see the counterexample.) -/
theorem C7_history_cap_without_redo (s : StoreState) (ops : List MutOp)
    (h : s.history.past.length ≤ MAX_HISTORY_SIZE) :
    (runOps s ops).history.past.length ≤ MAX_HISTORY_SIZE ∧
    ∀ (l : List HistoryEntry) (e : HistoryEntry),
      l.length = MAX_HISTORY_SIZE → capPast (l ++ [e]) = l.tail ++ [e] := by
  constructor
  · induction ops generalizing s with
    | nil => exact h
    | cons op ops ih =>
      simp only [runOps, List.foldl_cons]
      exact ih (applyOp s op) (applyOp_past_le s op h)
  · intro l e hl
    cases l with
    | nil => simp [MAX_HISTORY_SIZE] at hl
    | cons a t =>
      have hl2 : t.length = 49 := by
        simp [MAX_HISTORY_SIZE] at hl
        omega
      have hlen : (a :: (t ++ [e])).length - MAX_HISTORY_SIZE = 1 := by
        simp [MAX_HISTORY_SIZE, hl2]
      show List.drop ((a :: (t ++ [e])).length - MAX_HISTORY_SIZE)
        (a :: (t ++ [e])) = t ++ [e]
      rw [hlen]
      simp

/-- Witness for C7 at a concrete state and operation sequence exercising
every non-redo operation. -/
theorem C7_witness :
    (runOps testState [MutOp.move ["P"] 1 0, MutOp.commit, MutOp.undoOp,
        MutOp.cancel, MutOp.place "T" 0 0, MutOp.delete,
        MutOp.duplicate]).history.past.length ≤ MAX_HISTORY_SIZE ∧
    ∀ (l : List HistoryEntry) (e : HistoryEntry),
      l.length = MAX_HISTORY_SIZE → capPast (l ++ [e]) = l.tail ++ [e] :=
  C7_history_cap_without_redo testState
    [MutOp.move ["P"] 1 0, MutOp.commit, MutOp.undoOp, MutOp.cancel,
     MutOp.place "T" 0 0, MutOp.delete, MutOp.duplicate] (by decide)
